import Mathlib

/-!
Shallow embedding of the moderation / aggregation core of the iftarinuae
server (src/shared/schema.ts, src/server/storage.ts, src/server/routes.ts).

Rows are Lean structures mirroring the drizzle table columns; the database
is a record of row lists plus a counter modelling uuid generation.  SQL
statements become list operations: `select ... where eq` is `List.find?` /
`List.filter`, `update ... where` is a `List.map` that rewrites matching
rows, `insert` appends, `orderBy desc(createdAt)` is `List.insertionSort`
with the newest-first relation (Postgres puts NULL first under DESC, so a
missing timestamp sorts as `⊤`), `limit n` is `List.take n`.
Timestamps are naturals (`new Date()` becomes an explicit `now` argument);
JavaScript string falsiness (`null` or `""`) is modelled on `Option String`.
-/

namespace Iftar

/-- A row of the `places` table (src/shared/schema.ts lines 11-28). -/
structure Place where
  id : Nat
  name : String
  description : Option String
  location : String
  latitude : Option String
  longitude : Option String
  createdBy : String
  createdAt : Option Nat
  imageUrl1 : Option String
  imageUrl2 : Option String
  imageUrl3 : Option String
  approved : Bool
  approvedBy : Option String
  approvedAt : Option Nat
deriving DecidableEq, Repr

/-- A row of the `reviews` table (schema.ts lines 44-51). -/
structure Review where
  id : Nat
  placeId : Nat
  userId : String
  rating : Int
  comment : Option String
  createdAt : Option Nat
deriving DecidableEq, Repr

/-- A row of the `place_image_submissions` table (schema.ts lines 32-42). -/
structure PlaceImageSubmission where
  id : Nat
  placeId : Nat
  imageUrl : String
  submittedBy : String
  submittedAt : Option Nat
  approved : Bool
  approvedBy : Option String
  approvedAt : Option Nat
deriving DecidableEq, Repr

/-- The whole datastore: the three tables plus the uuid generator state. -/
structure DB where
  places : List Place
  reviews : List Review
  imageSubmissions : List PlaceImageSubmission
  nextId : Nat
deriving Repr

/-- JavaScript falsiness of a nullable text column: `null` and `""`. -/
def falsyStr : Option String → Bool
  | none => true
  | some s => s == ""

/-- The `PlaceWithReviews` API shape (schema.ts lines 129-133): the place
row spread together with a review list and the two aggregate fields. -/
structure PlaceWithReviews where
  place : Place
  reviews : List Review
  reviewCount : Nat
  averageRating : ℚ
deriving DecidableEq, Repr

/-- `Number(x.toFixed(1))`: round to one decimal, ties upward (idealised
over ℚ; `toFixed` rounds ties away from zero, and all averages here are
nonnegative). -/
def toFixed1 (q : ℚ) : ℚ := ((⌊q * 10 + 1 / 2⌋ : ℤ) : ℚ) / 10

/-- `placeReviews.reduce((sum, r) => sum + r.rating, 0)`. -/
def sumRatings (rs : List Review) : Int := rs.foldl (fun sum r => sum + r.rating) 0

/-- storage.ts lines 20-31, `buildPlaceWithReviews`: fetch the reviews of
one place (no ORDER BY, so table order), compute count and rounded mean. -/
def buildPlaceWithReviews (db : DB) (place : Place) (includeReviews : Bool) :
    PlaceWithReviews :=
  let placeReviews := db.reviews.filter (fun r => r.placeId == place.id)
  let totalRating := sumRatings placeReviews
  let averageRating : ℚ :=
    if placeReviews.length > 0 then (totalRating : ℚ) / placeReviews.length else 0
  { place := place
    reviews := if includeReviews then placeReviews else []
    reviewCount := placeReviews.length
    averageRating := toFixed1 averageRating }

/-- The `reviewMap.get(placeId) || {count 0, total 0}` lookup of
storage.ts lines 47-53: the grouping fold restricted to one key. -/
def reviewStatsFor (allReviews : List Review) (pid : Nat) : Nat × Int :=
  allReviews.foldl
    (fun current r => if r.placeId == pid then (current.1 + 1, current.2 + r.rating) else current)
    (0, 0)

/-- storage.ts lines 34-69, `buildPlacesBulk`: one bulk review fetch
(`inArray`), group by place id, annotate each place; `shrinkPayload`
nulls the 2nd/3rd image slots. -/
def buildPlacesBulk (db : DB) (placesList : List Place) (shrinkPayload : Bool) :
    List PlaceWithReviews :=
  let placeIds := placesList.map (fun p => p.id)
  let allReviews := db.reviews.filter (fun r => placeIds.contains r.placeId)
  placesList.map (fun place =>
    let revStats := reviewStatsFor allReviews place.id
    let avg : ℚ := if revStats.1 > 0 then (revStats.2 : ℚ) / revStats.1 else 0
    { place := { place with
        imageUrl2 := if shrinkPayload then none else place.imageUrl2
        imageUrl3 := if shrinkPayload then none else place.imageUrl3 }
      reviews := []
      reviewCount := revStats.1
      averageRating := toFixed1 avg })

/-- Postgres `ORDER BY created_at DESC` sort key: NULL sorts first under
DESC, i.e. as the largest key. -/
def createdKey : Option Nat → WithTop Nat
  | none => ⊤
  | some n => (n : WithTop Nat)

/-- The newest-first row order used by the listing queries. -/
def newerFirst (a b : Place) : Prop := createdKey b.createdAt ≤ createdKey a.createdAt

instance : DecidableRel newerFirst := fun a b =>
  inferInstanceAs (Decidable (createdKey b.createdAt ≤ createdKey a.createdAt))

instance : IsTotal Place newerFirst :=
  ⟨fun a b => (le_total (createdKey b.createdAt) (createdKey a.createdAt)).imp id id⟩

instance : IsTrans Place newerFirst :=
  ⟨fun _ _ _ hab hbc => le_trans hbc hab⟩

/-- storage.ts lines 71-82, `getPlaces`: approved only, newest first,
at most 200, bulk-annotated with the shrunk payload. -/
def getPlaces (db : DB) : List PlaceWithReviews :=
  let approvedPlaces :=
    (((db.places.filter (fun p => p.approved)).insertionSort newerFirst).take 200)
  buildPlacesBulk db approvedPlaces true

/-- storage.ts lines 84-89, `getPlace`: first row with the id, annotated
with the full review list. -/
def getPlace (db : DB) (id : Nat) : Option PlaceWithReviews :=
  (db.places.find? (fun p => p.id == id)).map (fun place => buildPlaceWithReviews db place true)

/-- The validated insert payload for `places` (insertPlaceSchema,
schema.ts lines 76-88): id, createdBy, createdAt and the three approval
fields are omitted by the schema and so can never appear here. -/
structure InsertPlace where
  name : String
  description : Option String
  location : String
  latitude : Option String
  longitude : Option String
  imageUrl1 : Option String
  imageUrl2 : Option String
  imageUrl3 : Option String
deriving DecidableEq, Repr

/-- storage.ts lines 91-94 plus the drizzle column defaults: insert the
row with a fresh id, `createdAt = now`, `approved` defaulting to false and
the approval columns NULL. -/
def createPlace (db : DB) (input : InsertPlace) (createdBy : String) (now : Nat) :
    Place × DB :=
  let newPlace : Place :=
    { id := db.nextId
      name := input.name
      description := input.description
      location := input.location
      latitude := input.latitude
      longitude := input.longitude
      createdBy := createdBy
      createdAt := some now
      imageUrl1 := input.imageUrl1
      imageUrl2 := input.imageUrl2
      imageUrl3 := input.imageUrl3
      approved := false
      approvedBy := none
      approvedAt := none }
  (newPlace, { db with places := db.places ++ [newPlace], nextId := db.nextId + 1 })

/-- The validated insert payload for `reviews` (insertReviewSchema,
schema.ts lines 90-97): id, userId, placeId, createdAt omitted. -/
structure InsertReview where
  rating : Int
  comment : Option String
deriving DecidableEq, Repr

/-- storage.ts lines 96-99 plus column defaults. -/
def createReview (db : DB) (input : InsertReview) (placeId : Nat) (userId : String)
    (now : Nat) : Review × DB :=
  let newReview : Review :=
    { id := db.nextId
      placeId := placeId
      userId := userId
      rating := input.rating
      comment := input.comment
      createdAt := some now }
  (newReview, { db with reviews := db.reviews ++ [newReview], nextId := db.nextId + 1 })

/-- storage.ts lines 101-107, `hasUserReviewedPlace`. -/
def hasUserReviewedPlace (db : DB) (userId : String) (placeId : Nat) : Bool :=
  db.reviews.any (fun r => r.userId == userId && r.placeId == placeId)

/-- storage.ts lines 218-224, `submitPlaceImage`: insert a pending
submission row (approval columns take their defaults). -/
def submitPlaceImage (db : DB) (placeId : Nat) (userId : String) (imageUrl : String)
    (now : Nat) : PlaceImageSubmission × DB :=
  let submission : PlaceImageSubmission :=
    { id := db.nextId
      placeId := placeId
      imageUrl := imageUrl
      submittedBy := userId
      submittedAt := some now
      approved := false
      approvedBy := none
      approvedAt := none }
  (submission,
    { db with imageSubmissions := db.imageSubmissions ++ [submission], nextId := db.nextId + 1 })

/-- The row rewrite of the UPDATE in approvePlace step 2. -/
def approveUpdate (adminUserId : String) (now : Nat) (p : Place) : Place :=
  { p with
    approved := true
    approvedBy := some adminUserId
    approvedAt := some now
    imageUrl1 := none
    imageUrl2 := none
    imageUrl3 := none }

/-- storage.ts lines 129-166, `approvePlace`: read the pending row; if
absent return `none` with no writes; otherwise set the approval fields and
clear the three image slots in one UPDATE, then insert one pending image
submission per truthy captured URL (`filter(Boolean)`), attributed to the
original creator. -/
def approvePlace (db : DB) (placeId : Nat) (adminUserId : String) (now : Nat) :
    Option Place × DB :=
  match db.places.find? (fun p => p.id == placeId) with
  | none => (none, db)
  | some pendingPlace =>
    let db1 := { db with
      places := db.places.map (fun p =>
        if p.id == placeId then approveUpdate adminUserId now p else p) }
    let imagesToRoute :=
      ([pendingPlace.imageUrl1, pendingPlace.imageUrl2, pendingPlace.imageUrl3].filterMap id
        ).filter (fun url => !(url == ""))
    let db2 := imagesToRoute.foldl
      (fun d url => (submitPlaceImage d placeId pendingPlace.createdBy url now).2) db1
    (some (approveUpdate adminUserId now pendingPlace), db2)

/-- storage.ts lines 168-179, `rejectPlace`: delete the reviews of the
place, then the place rows; report whether a place row was deleted. -/
def rejectPlace (db : DB) (placeId : Nat) : Bool × DB :=
  let db1 := { db with reviews := db.reviews.filter (fun r => !(r.placeId == placeId)) }
  let deletedRows := db1.places.filter (fun p => p.id == placeId)
  (deletedRows.length > 0,
    { db1 with places := db1.places.filter (fun p => !(p.id == placeId)) })

/-- The row rewrite of the UPDATE in approveImageSubmission step 1. -/
def approveSubUpdate (adminId : String) (now : Nat) (s : PlaceImageSubmission) :
    PlaceImageSubmission :=
  { s with approved := true, approvedBy := some adminId, approvedAt := some now }

/-- storage.ts lines 248-272, `approveImageSubmission`: mark the
submission approved (absence signals not-found); then look up the parent
place and copy the URL into the first falsy image slot, 1 then 2 then 3;
if all three are truthy nothing further is written. -/
def approveImageSubmission (db : DB) (submissionId : Nat) (adminId : String) (now : Nat) :
    Option PlaceImageSubmission × DB :=
  match db.imageSubmissions.find? (fun s => s.id == submissionId) with
  | none => (none, db)
  | some sub0 =>
    let submission := approveSubUpdate adminId now sub0
    let db1 := { db with
      imageSubmissions := db.imageSubmissions.map (fun s : PlaceImageSubmission =>
        if s.id == submissionId then approveSubUpdate adminId now s else s) }
    match db1.places.find? (fun p => p.id == submission.placeId) with
    | none => (some submission, db1)
    | some place =>
      if falsyStr place.imageUrl1 then
        (some submission, { db1 with places := db1.places.map (fun p : Place =>
          if p.id == place.id then { p with imageUrl1 := some submission.imageUrl } else p) })
      else if falsyStr place.imageUrl2 then
        (some submission, { db1 with places := db1.places.map (fun p : Place =>
          if p.id == place.id then { p with imageUrl2 := some submission.imageUrl } else p) })
      else if falsyStr place.imageUrl3 then
        (some submission, { db1 with places := db1.places.map (fun p : Place =>
          if p.id == place.id then { p with imageUrl3 := some submission.imageUrl } else p) })
      else (some submission, db1)

/-! ### Request layer (src/server/routes.ts) -/

/-- One zod issue as surfaced by the routes: `err.errors[0]` rendered as
a field path and a message. -/
structure ValidationError where
  field : String
  message : String
deriving DecidableEq, Repr

/-- The JSON body of `POST /api/places` as far as the schema looks at it.
`none` stands for an absent (or non-string) value.  The last five fields
are not part of `insertPlaceSchema` (they are omitted from it), so zod
strips them; they are carried here to state that stripping. -/
structure PlaceBody where
  name : Option String
  description : Option String
  location : Option String
  latitude : Option String
  longitude : Option String
  imageUrl1 : Option String
  imageUrl2 : Option String
  imageUrl3 : Option String
  bodyId : Option Nat
  bodyCreatedBy : Option String
  bodyApproved : Option Bool
  bodyApprovedBy : Option String
  bodyApprovedAt : Option Nat
deriving DecidableEq, Repr

/-- `insertPlaceSchema.parse` (schema.ts lines 76-88): `name` and
`location` are required strings (`z.string()` — the empty string passes);
the three image fields must be URLs when present (`isUrl` stands for
zod's `.url()` format test); issues are reported in shape order and the
route surfaces the first one. -/
def parseInsertPlace (isUrl : String → Bool) (b : PlaceBody) :
    Except ValidationError InsertPlace :=
  match b.name with
  | none => .error { field := "name", message := "Required" }
  | some name =>
    match b.location with
    | none => .error { field := "location", message := "Required" }
    | some location =>
      if b.imageUrl1.any (fun u => !isUrl u) then
        .error { field := "imageUrl1", message := "Invalid url" }
      else if b.imageUrl2.any (fun u => !isUrl u) then
        .error { field := "imageUrl2", message := "Invalid url" }
      else if b.imageUrl3.any (fun u => !isUrl u) then
        .error { field := "imageUrl3", message := "Invalid url" }
      else
        .ok { name := name
              description := b.description
              location := location
              latitude := b.latitude
              longitude := b.longitude
              imageUrl1 := b.imageUrl1
              imageUrl2 := b.imageUrl2
              imageUrl3 := b.imageUrl3 }

/-- Outcome of `POST /api/places` (routes.ts lines 85-103). -/
inductive CreatePlaceResult where
  | created (place : Place)
  | validationFailed (field : String) (message : String)
deriving DecidableEq, Repr

/-- routes.ts lines 85-103: parse the body with `insertPlaceSchema`,
answer 400 with the first issue on failure, else insert with
`createdBy` taken from the authenticated user, never from the body. -/
def postPlace (isUrl : String → Bool) (db : DB) (body : PlaceBody) (authUserId : String)
    (now : Nat) : CreatePlaceResult × DB :=
  match parseInsertPlace isUrl body with
  | .error e => (.validationFailed e.field e.message, db)
  | .ok input =>
    let r := createPlace db input authUserId now
    (.created r.1, r.2)

/-- The JSON body of `POST /api/places/:id/reviews`; the last four fields
are omitted from `insertReviewSchema` and hence stripped by zod. -/
structure ReviewBody where
  rating : Option Int
  comment : Option String
  bodyId : Option Nat
  bodyUserId : Option String
  bodyPlaceId : Option Nat
  bodyCreatedAt : Option Nat
deriving DecidableEq, Repr

/-- `insertReviewSchema.parse` (schema.ts lines 90-97): `rating` is a
required number between 1 and 5; `comment` is optional. -/
def parseInsertReview (b : ReviewBody) : Except ValidationError InsertReview :=
  match b.rating with
  | none => .error { field := "rating", message := "Required" }
  | some rating =>
    if rating < 1 then
      .error { field := "rating", message := "Number must be greater than or equal to 1" }
    else if rating > 5 then
      .error { field := "rating", message := "Number must be less than or equal to 5" }
    else
      .ok { rating := rating, comment := b.comment }

/-- Outcome of `POST /api/places/:id/reviews` (routes.ts lines 106-133). -/
inductive CreateReviewResult where
  | created (review : Review)
  | conflict (message : String)
  | validationFailed (field : String) (message : String)
deriving DecidableEq, Repr

/-- routes.ts lines 106-133: the duplicate pre-check runs first and
answers 409; then the body is parsed; on success the review is inserted
with `placeId` from the path and `userId` from the authenticated user. -/
def postReview (db : DB) (placeId : Nat) (userId : String) (body : ReviewBody)
    (now : Nat) : CreateReviewResult × DB :=
  if hasUserReviewedPlace db userId placeId then
    (.conflict "You have already reviewed this place.", db)
  else
    match parseInsertReview body with
    | .error e => (.validationFailed e.field e.message, db)
    | .ok input =>
      let r := createReview db input placeId userId now
      (.created r.1, r.2)

/-! ### Nearby ranking (routes.ts lines 23-73)

The distance arithmetic is JavaScript floating point in the source; it is
idealised here over the real numbers. -/

/-- The UAE bounding-box check of routes.ts lines 29-37 (accepted range). -/
def inUaeBounds (lat lng : ℝ) : Prop :=
  22 ≤ lat ∧ lat ≤ 27 ∧ 51 ≤ lng ∧ lng ≤ 57

/-- routes.ts lines 71-73. -/
noncomputable def deg2rad (deg : ℝ) : ℝ := deg * (Real.pi / 180)

/-- JavaScript `Math.atan2 y x`. -/
noncomputable def atan2 (y x : ℝ) : ℝ :=
  if 0 < x then Real.arctan (y / x)
  else if x = 0 then
    (if 0 < y then Real.pi / 2 else if y < 0 then -(Real.pi / 2) else 0)
  else if 0 ≤ y then Real.arctan (y / x) + Real.pi
  else Real.arctan (y / x) - Real.pi

/-- The haversine great-circle distance of routes.ts lines 50-59,
with Earth radius 6371 km. -/
noncomputable def haversineKm (lat lng placeLat placeLng : ℝ) : ℝ :=
  let R : ℝ := 6371
  let dLat := deg2rad (placeLat - lat)
  let dLng := deg2rad (placeLng - lng)
  let a :=
    Real.sin (dLat / 2) * Real.sin (dLat / 2) +
      Real.cos (deg2rad lat) * Real.cos (deg2rad placeLat) *
        (Real.sin (dLng / 2) * Real.sin (dLng / 2))
  let c := 2 * atan2 (Real.sqrt a) (Real.sqrt (1 - a))
  R * c

/-- `s || d` on a nullable text column (null and `""` fall back). -/
def orDefault (s : Option String) (d : String) : String :=
  match s with
  | none => d
  | some v => if v == "" then d else v

/-- routes.ts lines 42-61: the distance annotated onto one listed place.
`pf` stands for JavaScript `parseFloat`; a (0,0) parse gets `⊤`
(Infinity), anything else the haversine distance. -/
noncomputable def distanceOf (pf : String → ℝ) (lat lng : ℝ) (x : PlaceWithReviews) :
    WithTop ℝ :=
  let placeLat := pf (orDefault x.place.latitude "0")
  let placeLng := pf (orDefault x.place.longitude "0")
  if placeLat = 0 ∧ placeLng = 0 then ⊤
  else (haversineKm lat lng placeLat placeLng : WithTop ℝ)

/-- The comparator `(a, b) => a.distance - b.distance` as an order. -/
def distLe (a b : PlaceWithReviews × WithTop ℝ) : Prop := a.2 ≤ b.2

/-- routes.ts lines 39-68: annotate every listed place with its distance,
sort ascending by distance (`Array.prototype.sort` — some sorted
permutation), and keep the first 20. -/
def nearbyOutput (pf : String → ℝ) (lat lng : ℝ) (db : DB)
    (out : List (PlaceWithReviews × WithTop ℝ)) : Prop :=
  ∃ sortedList : List (PlaceWithReviews × WithTop ℝ),
    sortedList.Perm ((getPlaces db).map (fun x => (x, distanceOf pf lat lng x))) ∧
    List.Sorted distLe sortedList ∧
    out = sortedList.take 20

/-! ### Spec-side definitions (for refinement statements) -/

/-- Modelled from the spec: standard round-half-up of a rational. -/
def roundHalfUp (x : ℚ) : ℤ := ⌊x + 1 / 2⌋

/-- Modelled from the spec: "averageRating equals the sum of ratings
divided by the count, rounded to one decimal place using round-half-up,
or 0 when the count is 0". -/
def specAverageRating (ratings : List Int) : ℚ :=
  if ratings.length = 0 then 0
  else ((roundHalfUp ((((ratings.foldl (· + ·) 0 : Int) : ℚ) / ratings.length) * 10) : ℤ) : ℚ) / 10

/-- The place-approval invariant of the spec: pending rows carry no
approval metadata, approved rows carry both fields. -/
def approvalInvariant (p : Place) : Prop :=
  (p.approved = false ∧ p.approvedBy = none ∧ p.approvedAt = none) ∨
  (p.approved = true ∧ p.approvedBy ≠ none ∧ p.approvedAt ≠ none)

/-- Every place row of the datastore satisfies the approval invariant. -/
def dbInvariant (db : DB) : Prop := ∀ p ∈ db.places, approvalInvariant p

/-! ### Concrete fixtures used by example conjuncts and witnesses -/

def emptyDB : DB := { places := [], reviews := [], imageSubmissions := [], nextId := 0 }

def mkPlace (id : Nat) : Place :=
  { id := id, name := "Al Hallab", description := none, location := "Dubai Mall"
    latitude := none, longitude := none, createdBy := "creator", createdAt := some 1
    imageUrl1 := none, imageUrl2 := none, imageUrl3 := none
    approved := false, approvedBy := none, approvedAt := none }

def mkReview (id : Nat) (pid : Nat) (rating : Int) (t : Nat) : Review :=
  { id := id, placeId := pid, userId := "u" , rating := rating, comment := none
    createdAt := some t }

def c5place : Place := { mkPlace 1 with approved := true, approvedBy := some "a", approvedAt := some 2 }

def c5db54 : DB :=
  { places := [c5place], reviews := [mkReview 10 1 5 3, mkReview 11 1 4 4]
    imageSubmissions := [], nextId := 20 }

def c5db554 : DB :=
  { places := [c5place], reviews := [mkReview 10 1 5 3, mkReview 11 1 5 4, mkReview 12 1 4 5]
    imageSubmissions := [], nextId := 20 }

/-- Submission fields the approval cascade is specified on (everything
but the generated id and timestamp). -/
def subProj (s : PlaceImageSubmission) : Nat × String × String × Bool :=
  (s.placeId, s.submittedBy, s.imageUrl, s.approved)

def c1place : Place :=
  { mkPlace 3 with
    imageUrl1 := some "https://res.cloudinary.com/demo/1.jpg"
    imageUrl3 := some "https://res.cloudinary.com/demo/3.jpg" }

def c1db : DB := { places := [c1place], reviews := [], imageSubmissions := [], nextId := 7 }

def c3place : Place :=
  { mkPlace 4 with
    approved := true, approvedBy := some "a", approvedAt := some 2
    imageUrl1 := some "https://res.cloudinary.com/demo/a.jpg" }

def c3sub : PlaceImageSubmission :=
  { id := 9, placeId := 4, imageUrl := "https://res.cloudinary.com/demo/b.jpg"
    submittedBy := "u", submittedAt := some 3, approved := false
    approvedBy := none, approvedAt := none }

def c3db : DB := { places := [c3place], reviews := [], imageSubmissions := [c3sub], nextId := 30 }

def c6place1 : Place :=
  { mkPlace 1 with
    approved := true, approvedBy := some "a", approvedAt := some 9
    imageUrl1 := some "https://res.cloudinary.com/demo/1.jpg"
    imageUrl2 := some "https://res.cloudinary.com/demo/2.jpg" }

def c6db : DB :=
  { places := [c6place1, mkPlace 2]
    reviews := [mkReview 10 1 5 3, mkReview 11 1 4 4]
    imageSubmissions := [], nextId := 40 }

def c7db : DB :=
  { places := [{ mkPlace 1 with approved := true, approvedBy := some "a", approvedAt := some 9 }]
    reviews := [mkReview 10 1 5 1, mkReview 11 1 4 10]
    imageSubmissions := [], nextId := 40 }

/-- A body whose name is the empty string: `z.string()` accepts it. -/
def c8body : PlaceBody :=
  { name := some "", description := none, location := some "Dubai Mall"
    latitude := none, longitude := none
    imageUrl1 := none, imageUrl2 := none, imageUrl3 := none
    bodyId := none, bodyCreatedBy := none, bodyApproved := none
    bodyApprovedBy := none, bodyApprovedAt := none }

def c8goodBody : PlaceBody :=
  { name := some "Seven Sands", description := none, location := some "JBR"
    latitude := none, longitude := none
    imageUrl1 := none, imageUrl2 := none, imageUrl3 := none
    bodyId := none, bodyCreatedBy := none, bodyApproved := none
    bodyApprovedBy := none, bodyApprovedAt := none }

/-- The same body with every stripped (forgeable) field set. -/
def c10forgedBody : PlaceBody :=
  { c8goodBody with
    bodyId := some 99, bodyCreatedBy := some "attacker", bodyApproved := some true
    bodyApprovedBy := some "attacker", bodyApprovedAt := some 1 }

def c10reviewBody : ReviewBody :=
  { rating := some 4, comment := none, bodyId := none, bodyUserId := none
    bodyPlaceId := none, bodyCreatedAt := none }

def c10forgedReviewBody : ReviewBody :=
  { c10reviewBody with
    bodyId := some 99, bodyUserId := some "attacker", bodyPlaceId := some 77
    bodyCreatedAt := some 1 }

/-- The parsed payload corresponding to `c8goodBody`. -/
def c8input : InsertPlace :=
  { name := "Seven Sands", description := none, location := "JBR"
    latitude := none, longitude := none
    imageUrl1 := none, imageUrl2 := none, imageUrl3 := none }

/-- The row the counterexample request stores: note the empty name. -/
def c8row : Place :=
  { id := 0, name := "", description := none, location := "Dubai Mall"
    latitude := none, longitude := none, createdBy := "u1", createdAt := some 7
    imageUrl1 := none, imageUrl2 := none, imageUrl3 := none
    approved := false, approvedBy := none, approvedAt := none }

/-- The expected public-listing entry for `c6db`. -/
def c6entry : PlaceWithReviews :=
  { place := { c6place1 with imageUrl2 := none, imageUrl3 := none }
    reviews := [], reviewCount := 2, averageRating := 45 / 10 }

/-- A parseFloat stand-in for witnesses. -/
def pfZero : String → ℝ := fun _ => 0

/-! ### Helper lemmas -/

theorem foldl_add_rating (l : List Review) (init : Int) :
    l.foldl (fun sum r => sum + r.rating) init = init + sumRatings l := by
  induction l generalizing init with
  | nil => simp [sumRatings]
  | cons r rs ih =>
    have h2 : sumRatings (r :: rs) = r.rating + sumRatings rs := by
      rw [sumRatings, List.foldl_cons, ih]; ring
    rw [List.foldl_cons, ih, h2]; ring

theorem sumRatings_cons (r : Review) (rs : List Review) :
    sumRatings (r :: rs) = r.rating + sumRatings rs := by
  rw [sumRatings, List.foldl_cons, foldl_add_rating]
  simp

theorem sumRatings_eq_foldl_map (rs : List Review) :
    (rs.map (fun r => r.rating)).foldl (· + ·) 0 = sumRatings rs := by
  rw [List.foldl_map]; rfl

/-- The grouping fold of `buildPlacesBulk`, restricted to one place id,
computes the count and sum of that place's reviews. -/
theorem reviewStatsFor_eq (l : List Review) (pid : Nat) :
    reviewStatsFor l pid =
      ((l.filter (fun r => r.placeId == pid)).length,
        sumRatings (l.filter (fun r => r.placeId == pid))) := by
  suffices h : ∀ (acc : Nat × Int),
      l.foldl (fun current r =>
        if r.placeId == pid then (current.1 + 1, current.2 + r.rating) else current) acc =
      (acc.1 + (l.filter (fun r => r.placeId == pid)).length,
        acc.2 + sumRatings (l.filter (fun r => r.placeId == pid))) by
    rw [reviewStatsFor, h (0, 0)]; simp
  induction l with
  | nil => intro acc; simp [sumRatings]
  | cons r rs ih =>
    intro acc
    rw [List.foldl_cons]
    by_cases hr : (r.placeId == pid) = true
    · rw [if_pos hr, ih]
      simp only [List.filter_cons, hr, if_true, List.length_cons, sumRatings_cons, Prod.mk.injEq]
      constructor <;> ring
    · rw [if_neg (by simp_all), List.filter_cons_of_neg (by simp_all), ih]

/-- The read-time aggregate of the code (truthy-guarded mean followed by
`toFixed(1)`) matches the spec's round-half-up description. -/
theorem avgCode_eq_spec (rs : List Review) :
    toFixed1 (if rs.length > 0 then (sumRatings rs : ℚ) / rs.length else 0) =
      specAverageRating (rs.map (fun r => r.rating)) := by
  by_cases h : rs.length = 0
  · simp [h, toFixed1, specAverageRating]
    norm_num
  · rw [if_pos (Nat.pos_of_ne_zero h), specAverageRating, if_neg (by simpa using h)]
    rw [sumRatings_eq_foldl_map, List.length_map, toFixed1, roundHalfUp]

/-! ### Claim theorems -/

/-- C5: the read-time aggregates satisfy reviewCount = number of reviews
and averageRating = sum / count rounded half-up to one decimal (0 when
empty); ratings [5,4] give 4.5 and [5,5,4] give 4.7; the computation is a
pure function of the review set. -/
theorem place_stats_spec :
    (∀ (db : DB) (place : Place) (inc : Bool),
      (buildPlaceWithReviews db place inc).reviewCount =
          (db.reviews.filter (fun r => r.placeId == place.id)).length ∧
        (buildPlaceWithReviews db place inc).averageRating =
          specAverageRating
            ((db.reviews.filter (fun r => r.placeId == place.id)).map (fun r => r.rating))) ∧
    ((buildPlaceWithReviews c5db54 c5place true).averageRating = 45 / 10 ∧
      (buildPlaceWithReviews c5db54 c5place true).reviewCount = 2) ∧
    ((buildPlaceWithReviews c5db554 c5place true).averageRating = 47 / 10 ∧
      (buildPlaceWithReviews c5db554 c5place true).reviewCount = 3) ∧
    (∀ (db1 db2 : DB) (place : Place) (inc1 inc2 : Bool),
      db1.reviews.filter (fun r => r.placeId == place.id) =
          db2.reviews.filter (fun r => r.placeId == place.id) →
      (buildPlaceWithReviews db1 place inc1).reviewCount =
          (buildPlaceWithReviews db2 place inc2).reviewCount ∧
        (buildPlaceWithReviews db1 place inc1).averageRating =
          (buildPlaceWithReviews db2 place inc2).averageRating) := by
  refine ⟨fun db place inc => ⟨rfl, ?_⟩,
    ⟨by norm_num [buildPlaceWithReviews, sumRatings, toFixed1, c5db54, c5place, mkReview, mkPlace],
      by decide⟩,
    ⟨by norm_num [buildPlaceWithReviews, sumRatings, toFixed1, c5db554, c5place, mkReview, mkPlace],
      by decide⟩,
    fun db1 db2 place inc1 inc2 hsame => ?_⟩
  · exact avgCode_eq_spec _
  · constructor
    · show (db1.reviews.filter (fun r => r.placeId == place.id)).length = _
      rw [hsame]; rfl
    · show toFixed1 _ = toFixed1 _
      rw [show (db1.reviews.filter (fun r => r.placeId == place.id)) =
        (db2.reviews.filter (fun r => r.placeId == place.id)) from hsame]

/-- C5 witness: the determinism conjunct applied at a concrete pair of
equal review sets. -/
theorem place_stats_spec_witness :
    (buildPlaceWithReviews c5db54 c5place true).reviewCount =
        (buildPlaceWithReviews c5db54 c5place false).reviewCount ∧
      (buildPlaceWithReviews c5db54 c5place true).averageRating =
        (buildPlaceWithReviews c5db54 c5place false).averageRating :=
  place_stats_spec.2.2.2 c5db54 c5db54 c5place true false rfl

/-- C4: after a successful createReview for (U, P), hasUserReviewedPlace
answers true, and a repeated create-review request at the request layer is
rejected with the 409 conflict and inserts nothing. -/
theorem review_then_conflict (db : DB) (input : InsertReview) (placeId : Nat)
    (userId : String) (now now2 : Nat) (body : ReviewBody) :
    hasUserReviewedPlace (createReview db input placeId userId now).2 userId placeId = true ∧
    postReview (createReview db input placeId userId now).2 placeId userId body now2 =
      (.conflict "You have already reviewed this place.",
        (createReview db input placeId userId now).2) := by
  have h : hasUserReviewedPlace (createReview db input placeId userId now).2 userId placeId
      = true := by
    simp [createReview, hasUserReviewedPlace]
  exact ⟨h, by simp [postReview, h]⟩

theorem routeImages_places (pid : Nat) (creator : String) (now : Nat) :
    ∀ (urls : List String) (db : DB),
      (urls.foldl (fun d url => (submitPlaceImage d pid creator url now).2) db).places =
        db.places := by
  intro urls
  induction urls with
  | nil => intro db; rfl
  | cons u us ih => intro db; rw [List.foldl_cons, ih]; rfl

theorem routeImages_reviews (pid : Nat) (creator : String) (now : Nat) :
    ∀ (urls : List String) (db : DB),
      (urls.foldl (fun d url => (submitPlaceImage d pid creator url now).2) db).reviews =
        db.reviews := by
  intro urls
  induction urls with
  | nil => intro db; rfl
  | cons u us ih => intro db; rw [List.foldl_cons, ih]; rfl

theorem routeImages_subs (pid : Nat) (creator : String) (now : Nat) :
    ∀ (urls : List String) (db : DB),
      (urls.foldl (fun d url => (submitPlaceImage d pid creator url now).2) db
          ).imageSubmissions.map subProj =
        db.imageSubmissions.map subProj ++ urls.map (fun url => (pid, creator, url, false)) := by
  intro urls
  induction urls with
  | nil => intro db; simp
  | cons u us ih =>
    intro db
    rw [List.foldl_cons, ih]
    simp [submitPlaceImage, subProj]

theorem approvalInvariant_congr {p q : Place} (h1 : p.approved = q.approved)
    (h2 : p.approvedBy = q.approvedBy) (h3 : p.approvedAt = q.approvedAt) :
    approvalInvariant q → approvalInvariant p := by
  intro h
  unfold approvalInvariant at *
  rw [h1, h2, h3]
  exact h

/-- Every place row after `approveImageSubmission` is either an original
row or an original row with one image slot rewritten; approval fields are
untouched in every case. -/
theorem approveImageSubmission_places_shape (db : DB) (sid : Nat) (a : String) (now : Nat) :
    ∀ p' ∈ (approveImageSubmission db sid a now).2.places, ∃ p ∈ db.places,
      p'.approved = p.approved ∧ p'.approvedBy = p.approvedBy ∧ p'.approvedAt = p.approvedAt := by
  intro p' hp'
  unfold approveImageSubmission at hp'
  rcases h1 : db.imageSubmissions.find? (fun s => s.id == sid) with _ | sub0
  · rw [h1] at hp'
    exact ⟨p', hp', rfl, rfl, rfl⟩
  · rw [h1] at hp'
    simp only at hp'
    rcases h2 : db.places.find? (fun p =>
        p.id == (approveSubUpdate a now sub0).placeId) with _ | place
    · rw [show ({ db with imageSubmissions := db.imageSubmissions.map (fun s =>
          if s.id == sid then approveSubUpdate a now s else s) } : DB).places = db.places
          from rfl] at h2
      rw [h2] at hp'
      exact ⟨p', hp', rfl, rfl, rfl⟩
    · rw [show ({ db with imageSubmissions := db.imageSubmissions.map (fun s =>
          if s.id == sid then approveSubUpdate a now s else s) } : DB).places = db.places
          from rfl] at h2
      rw [h2] at hp'
      simp only at hp'
      by_cases f1 : falsyStr place.imageUrl1 = true
      · rw [if_pos f1] at hp'
        simp only [List.mem_map] at hp'
        obtain ⟨p, hp, hpe⟩ := hp'
        refine ⟨p, hp, ?_⟩
        subst hpe
        by_cases hid : (p.id == place.id) = true
        · rw [if_pos hid]; exact ⟨rfl, rfl, rfl⟩
        · rw [if_neg hid]; exact ⟨rfl, rfl, rfl⟩
      · rw [if_neg f1] at hp'
        by_cases f2 : falsyStr place.imageUrl2 = true
        · rw [if_pos f2] at hp'
          simp only [List.mem_map] at hp'
          obtain ⟨p, hp, hpe⟩ := hp'
          refine ⟨p, hp, ?_⟩
          subst hpe
          by_cases hid : (p.id == place.id) = true
          · rw [if_pos hid]; exact ⟨rfl, rfl, rfl⟩
          · rw [if_neg hid]; exact ⟨rfl, rfl, rfl⟩
        · rw [if_neg f2] at hp'
          by_cases f3 : falsyStr place.imageUrl3 = true
          · rw [if_pos f3] at hp'
            simp only [List.mem_map] at hp'
            obtain ⟨p, hp, hpe⟩ := hp'
            refine ⟨p, hp, ?_⟩
            subst hpe
            by_cases hid : (p.id == place.id) = true
            · rw [if_pos hid]; exact ⟨rfl, rfl, rfl⟩
            · rw [if_neg hid]; exact ⟨rfl, rfl, rfl⟩
          · rw [if_neg f3] at hp'
            exact ⟨p', hp', rfl, rfl, rfl⟩

/-- C2: every operation of the system keeps each place row in one of the
two legal approval states, and in particular the approval flag is true
exactly when both approver and approval timestamp are set. -/
theorem approval_state_invariant :
    (∀ (db : DB) (input : InsertPlace) (creator : String) (now : Nat),
      dbInvariant db → dbInvariant (createPlace db input creator now).2) ∧
    (∀ (db : DB) (pid : Nat) (admin : String) (now : Nat),
      dbInvariant db → dbInvariant (approvePlace db pid admin now).2) ∧
    (∀ (db : DB) (sid : Nat) (admin : String) (now : Nat),
      dbInvariant db → dbInvariant (approveImageSubmission db sid admin now).2) ∧
    (∀ (db : DB) (pid : Nat), dbInvariant db → dbInvariant (rejectPlace db pid).2) ∧
    (∀ p : Place, approvalInvariant p →
      (p.approved = true ↔ (p.approvedBy ≠ none ∧ p.approvedAt ≠ none))) := by
  refine ⟨?_, ?_, ?_, ?_, ?_⟩
  · intro db input creator now hinv p hp
    simp only [createPlace, List.mem_append, List.mem_singleton] at hp
    rcases hp with hp | hp
    · exact hinv p hp
    · subst hp; left; exact ⟨rfl, rfl, rfl⟩
  · intro db pid admin now hinv p hp
    unfold approvePlace at hp
    rcases h1 : db.places.find? (fun q => q.id == pid) with _ | pending
    · rw [h1] at hp; exact hinv p hp
    · rw [h1] at hp
      simp only at hp
      rw [routeImages_places] at hp
      simp only [List.mem_map] at hp
      obtain ⟨q, hq, hqe⟩ := hp
      subst hqe
      by_cases hid : (q.id == pid) = true
      · rw [if_pos hid]
        right
        exact ⟨rfl, by simp [approveUpdate], by simp [approveUpdate]⟩
      · rw [if_neg hid]
        exact hinv q hq
  · intro db sid admin now hinv p hp
    obtain ⟨q, hq, e1, e2, e3⟩ := approveImageSubmission_places_shape db sid admin now p hp
    exact approvalInvariant_congr e1 e2 e3 (hinv q hq)
  · intro db pid hinv p hp
    simp only [rejectPlace, List.mem_filter] at hp
    exact hinv p hp.1
  · intro p hinv
    rcases hinv with ⟨h1, h2, h3⟩ | ⟨h1, h2, h3⟩
    · rw [h1]
      simp [h2, h3]
    · rw [h1]
      simp [h2, h3]

/-- C2 witness: the approve transition applied to a concrete pending
store keeps the invariant. -/
theorem approval_state_invariant_witness :
    dbInvariant (approvePlace c1db 3 "admin" 5).2 :=
  approval_state_invariant.2.1 c1db 3 "admin" 5
    (by
      intro p hp
      simp only [c1db, c1place, mkPlace, List.mem_singleton] at hp
      subst hp
      left
      exact ⟨rfl, rfl, rfl⟩)

theorem falsyStr_eq_none {o : Option String} (h : o ≠ some "") :
    falsyStr o = true ↔ o = none := by
  cases o with
  | none => simp [falsyStr]
  | some s =>
    simp only [falsyStr, beq_iff_eq]
    constructor
    · intro hs
      exact absurd (by rw [hs]) h
    · intro hs
      exact Option.noConfusion hs

theorem filter_nonempty_urls {o1 o2 o3 : Option String}
    (h1 : o1 ≠ some "") (h2 : o2 ≠ some "") (h3 : o3 ≠ some "") :
    ([o1, o2, o3].filterMap id).filter (fun url => !(url == "")) =
      [o1, o2, o3].filterMap id := by
  rw [List.filter_eq_self]
  intro u hu
  simp only [List.mem_filterMap, id_eq] at hu
  obtain ⟨a, ha, hae⟩ := hu
  subst hae
  simp only [Bool.not_eq_true', beq_eq_false_iff_ne]
  intro he
  subst he
  simp only [List.mem_cons, List.mem_singleton, List.not_mem_nil, or_false] at ha
  rcases ha with ha | ha | ha
  · exact h1 ha.symm
  · exact h2 ha.symm
  · exact h3 ha.symm

/-- C1: approvePlace on an existing place sets the approval fields and
clears the three image slots in the same row update, re-routes every
previously non-null image URL into one pending image submission attributed
to the original creator, and on a missing id returns the absence signal
with no writes. -/
theorem approve_place_spec (db : DB) (placeId : Nat) (adminUserId : String) (now : Nat) :
    (db.places.find? (fun p => p.id == placeId) = none →
      approvePlace db placeId adminUserId now = (none, db)) ∧
    (∀ pendingPlace, db.places.find? (fun p => p.id == placeId) = some pendingPlace →
      pendingPlace.imageUrl1 ≠ some "" → pendingPlace.imageUrl2 ≠ some "" →
      pendingPlace.imageUrl3 ≠ some "" →
      ((approvePlace db placeId adminUserId now).1 =
          some (approveUpdate adminUserId now pendingPlace) ∧
        (approveUpdate adminUserId now pendingPlace).approved = true ∧
        (approveUpdate adminUserId now pendingPlace).approvedBy = some adminUserId ∧
        (approveUpdate adminUserId now pendingPlace).approvedAt = some now ∧
        (approveUpdate adminUserId now pendingPlace).imageUrl1 = none ∧
        (approveUpdate adminUserId now pendingPlace).imageUrl2 = none ∧
        (approveUpdate adminUserId now pendingPlace).imageUrl3 = none) ∧
      (approvePlace db placeId adminUserId now).2.places =
        db.places.map (fun p => if p.id == placeId then approveUpdate adminUserId now p else p) ∧
      (approvePlace db placeId adminUserId now).2.imageSubmissions.map subProj =
        db.imageSubmissions.map subProj ++
          ([pendingPlace.imageUrl1, pendingPlace.imageUrl2,
              pendingPlace.imageUrl3].filterMap id).map
            (fun url => (placeId, pendingPlace.createdBy, url, false)) ∧
      (approvePlace db placeId adminUserId now).2.reviews = db.reviews) := by
  constructor
  · intro h
    unfold approvePlace
    rw [h]
  · intro pendingPlace h hne1 hne2 hne3
    have hred : approvePlace db placeId adminUserId now =
        (some (approveUpdate adminUserId now pendingPlace),
          (([pendingPlace.imageUrl1, pendingPlace.imageUrl2,
              pendingPlace.imageUrl3].filterMap id).filter (fun url => !(url == ""))).foldl
            (fun d url => (submitPlaceImage d placeId pendingPlace.createdBy url now).2)
            { db with places := db.places.map (fun p =>
                if p.id == placeId then approveUpdate adminUserId now p else p) }) := by
      unfold approvePlace
      rw [h]
    rw [hred, filter_nonempty_urls hne1 hne2 hne3]
    refine ⟨⟨rfl, rfl, rfl, rfl, rfl, rfl, rfl⟩, ?_, ?_, ?_⟩
    · rw [routeImages_places]
    · rw [routeImages_subs]
    · rw [routeImages_reviews]

/-- C1 witness: a concrete pending place with two images is approved; the
returned row carries the approval fields and cleared slots. -/
theorem approve_place_spec_witness :
    (approvePlace c1db 3 "admin" 5).1 = some (approveUpdate "admin" 5 c1place) ∧
      (approvePlace c1db 3 "admin" 5).2.imageSubmissions.map subProj =
        c1db.imageSubmissions.map subProj ++
          ([c1place.imageUrl1, c1place.imageUrl2, c1place.imageUrl3].filterMap id).map
            (fun url => (3, c1place.createdBy, url, false)) :=
  ⟨((approve_place_spec c1db 3 "admin" 5).2 c1place (by decide) (by decide) (by decide)
      (by decide)).1.1,
    ((approve_place_spec c1db 3 "admin" 5).2 c1place (by decide) (by decide) (by decide)
      (by decide)).2.2.1⟩

/-- C3: approveImageSubmission marks an existing submission approved with
approver and timestamp, then fills the first null image slot of the
parent place with the submission's URL; with all three slots occupied the
place is left entirely unchanged while the submission stays approved; a
missing submission id yields the absence signal with no writes. -/
theorem approve_image_submission_spec (db : DB) (sid : Nat) (adminId : String) (now : Nat) :
    (db.imageSubmissions.find? (fun s => s.id == sid) = none →
      approveImageSubmission db sid adminId now = (none, db)) ∧
    (∀ sub0, db.imageSubmissions.find? (fun s => s.id == sid) = some sub0 →
      ((approveImageSubmission db sid adminId now).1 =
          some (approveSubUpdate adminId now sub0) ∧
        (approveSubUpdate adminId now sub0).approved = true ∧
        (approveSubUpdate adminId now sub0).approvedBy = some adminId ∧
        (approveSubUpdate adminId now sub0).approvedAt = some now) ∧
      (approveImageSubmission db sid adminId now).2.imageSubmissions =
        db.imageSubmissions.map (fun s =>
          if s.id == sid then approveSubUpdate adminId now s else s) ∧
      (∀ place, db.places.find? (fun p => p.id == sub0.placeId) = some place →
        place.imageUrl1 ≠ some "" → place.imageUrl2 ≠ some "" → place.imageUrl3 ≠ some "" →
        (place.imageUrl1 = none →
          (approveImageSubmission db sid adminId now).2.places =
            db.places.map (fun p => if p.id == place.id then
              { p with imageUrl1 := some sub0.imageUrl } else p)) ∧
        (place.imageUrl1 ≠ none → place.imageUrl2 = none →
          (approveImageSubmission db sid adminId now).2.places =
            db.places.map (fun p => if p.id == place.id then
              { p with imageUrl2 := some sub0.imageUrl } else p)) ∧
        (place.imageUrl1 ≠ none → place.imageUrl2 ≠ none → place.imageUrl3 = none →
          (approveImageSubmission db sid adminId now).2.places =
            db.places.map (fun p => if p.id == place.id then
              { p with imageUrl3 := some sub0.imageUrl } else p)) ∧
        (place.imageUrl1 ≠ none → place.imageUrl2 ≠ none → place.imageUrl3 ≠ none →
          (approveImageSubmission db sid adminId now).2.places = db.places))) := by
  constructor
  · intro h
    unfold approveImageSubmission
    rw [h]
  · intro sub0 h
    have hplaceId : (approveSubUpdate adminId now sub0).placeId = sub0.placeId := rfl
    unfold approveImageSubmission
    rw [h]
    simp only
    refine ⟨⟨?_, rfl, rfl, rfl⟩, ?_, ?_⟩
    · rcases h2 : db.places.find? (fun p => p.id == (approveSubUpdate adminId now sub0).placeId)
        with _ | place
      · rw [h2]
      · rw [h2]
        simp only
        by_cases f1 : falsyStr place.imageUrl1 = true
        · rw [if_pos f1]
        · rw [if_neg f1]
          by_cases f2 : falsyStr place.imageUrl2 = true
          · rw [if_pos f2]
          · rw [if_neg f2]
            by_cases f3 : falsyStr place.imageUrl3 = true
            · rw [if_pos f3]
            · rw [if_neg f3]
    · rcases h2 : db.places.find? (fun p => p.id == (approveSubUpdate adminId now sub0).placeId)
        with _ | place
      · rw [h2]
      · rw [h2]
        simp only
        by_cases f1 : falsyStr place.imageUrl1 = true
        · rw [if_pos f1]
        · rw [if_neg f1]
          by_cases f2 : falsyStr place.imageUrl2 = true
          · rw [if_pos f2]
          · rw [if_neg f2]
            by_cases f3 : falsyStr place.imageUrl3 = true
            · rw [if_pos f3]
            · rw [if_neg f3]
    · intro place hfind hn1 hn2 hn3
      have hf1 := falsyStr_eq_none hn1
      have hf2 := falsyStr_eq_none hn2
      have hf3 := falsyStr_eq_none hn3
      rw [show db.places.find? (fun p => p.id == (approveSubUpdate adminId now sub0).placeId) =
        db.places.find? (fun p => p.id == sub0.placeId) from rfl, hfind]
      simp only
      refine ⟨?_, ?_, ?_, ?_⟩
      · intro hu1
        rw [if_pos (hf1.mpr hu1)]
        rfl
      · intro hu1 hu2
        rw [if_neg (fun hh => hu1 (hf1.mp hh)), if_pos (hf2.mpr hu2)]
        rfl
      · intro hu1 hu2 hu3
        rw [if_neg (fun hh => hu1 (hf1.mp hh)), if_neg (fun hh => hu2 (hf2.mp hh)),
          if_pos (hf3.mpr hu3)]
        rfl
      · intro hu1 hu2 hu3
        rw [if_neg (fun hh => hu1 (hf1.mp hh)), if_neg (fun hh => hu2 (hf2.mp hh)),
          if_neg (fun hh => hu3 (hf3.mp hh))]

/-- C3 witness: a concrete submission against a place whose first slot is
occupied lands in the second slot and is itself marked approved. -/
theorem approve_image_submission_spec_witness :
    (approveImageSubmission c3db 9 "admin" 6).1 = some (approveSubUpdate "admin" 6 c3sub) ∧
      (approveImageSubmission c3db 9 "admin" 6).2.places =
        c3db.places.map (fun p => if p.id == c3place.id then
          { p with imageUrl2 := some c3sub.imageUrl } else p) :=
  ⟨(((approve_image_submission_spec c3db 9 "admin" 6).2 c3sub (by decide))).1.1,
    ((((approve_image_submission_spec c3db 9 "admin" 6).2 c3sub (by decide))).2.2 c3place
      (by decide) (by decide) (by decide) (by decide)).2.1 (by decide) (by decide)⟩

theorem bulk_filter_collapse (rs : List Review) (ids : List Nat) (pid : Nat)
    (hmem : ids.contains pid = true) :
    (rs.filter (fun r => ids.contains r.placeId)).filter (fun r => r.placeId == pid) =
      rs.filter (fun r => r.placeId == pid) := by
  rw [List.filter_filter]
  apply List.filter_congr
  intro r _
  by_cases hr : (r.placeId == pid) = true
  · have heq : r.placeId = pid := by simpa using hr
    rw [hr, heq, hmem]
    rfl
  · have hr' : (r.placeId == pid) = false := by simpa using hr
    rw [hr']
    simp

theorem buildPlacesBulk_length (db : DB) (pl : List Place) (s : Bool) :
    (buildPlacesBulk db pl s).length = pl.length := by
  unfold buildPlacesBulk
  simp

/-- Each output row of the bulk annotator comes from an input place row,
with the payload shrink applied and aggregates computed from exactly that
place's reviews. -/
theorem buildPlacesBulk_mem (db : DB) (pl : List Place) :
    ∀ x ∈ buildPlacesBulk db pl true, ∃ p ∈ pl,
      x.place = { p with imageUrl2 := none, imageUrl3 := none } ∧
      x.reviews = [] ∧
      x.reviewCount = (db.reviews.filter (fun r => r.placeId == p.id)).length ∧
      x.averageRating =
        specAverageRating
          ((db.reviews.filter (fun r => r.placeId == p.id)).map (fun r => r.rating)) := by
  intro x hx
  unfold buildPlacesBulk at hx
  simp only [List.mem_map] at hx
  obtain ⟨p, hp, he⟩ := hx
  have hmem : (pl.map (fun q => q.id)).contains p.id = true := by
    simp only [List.contains_eq_any_beq, List.any_eq_true, List.mem_map]
    exact ⟨p.id, ⟨p, hp, rfl⟩, by simp⟩
  have hstats : reviewStatsFor
      (db.reviews.filter (fun r => (pl.map (fun q => q.id)).contains r.placeId)) p.id =
      ((db.reviews.filter (fun r => r.placeId == p.id)).length,
        sumRatings (db.reviews.filter (fun r => r.placeId == p.id))) := by
    rw [reviewStatsFor_eq, bulk_filter_collapse db.reviews _ _ hmem]
  subst he
  refine ⟨p, hp, ?_, ?_, ?_, ?_⟩
  · rfl
  · rfl
  · show (reviewStatsFor _ _).1 = _
    rw [hstats]
  · show toFixed1 (if (reviewStatsFor _ _).1 > 0 then
      ((reviewStatsFor _ _).2 : ℚ) / (reviewStatsFor _ _).1 else 0) = _
    rw [hstats]
    exact avgCode_eq_spec _

/-- C6: the public place listing contains only approved places, newest
first, at most 200; each entry keeps the first image URL but has the 2nd
and 3rd nulled, carries no review list, and is annotated with that
place's review count and rounded average rating. -/
theorem public_listing_spec (db : DB) :
    (getPlaces db).length ≤ 200 ∧
    List.Pairwise (fun a b : PlaceWithReviews =>
      createdKey b.place.createdAt ≤ createdKey a.place.createdAt) (getPlaces db) ∧
    (∀ x ∈ getPlaces db, ∃ p ∈ db.places, p.approved = true ∧
      x.place = { p with imageUrl2 := none, imageUrl3 := none } ∧
      x.place.imageUrl1 = p.imageUrl1 ∧
      x.reviews = [] ∧
      x.reviewCount = (db.reviews.filter (fun r => r.placeId == p.id)).length ∧
      x.averageRating =
        specAverageRating
          ((db.reviews.filter (fun r => r.placeId == p.id)).map (fun r => r.rating))) := by
  have hsorted : List.Pairwise newerFirst
      (((db.places.filter (fun p => p.approved)).insertionSort newerFirst).take 200) :=
    List.Pairwise.sublist (List.take_sublist _ _)
      (List.sorted_insertionSort newerFirst (db.places.filter (fun p => p.approved)))
  refine ⟨?_, ?_, ?_⟩
  · show (buildPlacesBulk db _ true).length ≤ 200
    rw [buildPlacesBulk_length, List.length_take]
    exact min_le_left _ _
  · show List.Pairwise _ (buildPlacesBulk db _ true)
    unfold buildPlacesBulk
    simp only
    rw [List.pairwise_map]
    exact hsorted
  · intro x hx
    obtain ⟨p, hp, h1, h2, h3, h4⟩ := buildPlacesBulk_mem db _ x hx
    have hp2 : p ∈ (db.places.filter (fun q => q.approved)).insertionSort newerFirst :=
      (List.take_sublist _ _).subset hp
    have hp3 : p ∈ db.places.filter (fun q => q.approved) :=
      (List.mem_insertionSort newerFirst).mp hp2
    have hp4 := List.mem_filter.mp hp3
    exact ⟨p, hp4.1, hp4.2, h1, by rw [h1], h2, h3, h4⟩

/-- C6 witness: the listing of a concrete store with one approved and one
pending place contains the approved place, shrunk and annotated. -/
theorem public_listing_spec_witness :
    c6entry ∈ getPlaces c6db ∧
    ∃ p ∈ c6db.places, p.approved = true ∧
      c6entry.place = { p with imageUrl2 := none, imageUrl3 := none } ∧
      c6entry.place.imageUrl1 = p.imageUrl1 ∧
      c6entry.reviews = [] ∧
      c6entry.reviewCount = (c6db.reviews.filter (fun r => r.placeId == p.id)).length ∧
      c6entry.averageRating =
        specAverageRating
          ((c6db.reviews.filter (fun r => r.placeId == p.id)).map (fun r => r.rating)) := by
  have hmem : c6entry ∈ getPlaces c6db := by
    norm_num [getPlaces, buildPlacesBulk, reviewStatsFor, toFixed1, c6db, c6place1, c6entry,
      mkPlace, mkReview, List.insertionSort, List.orderedInsert]
  exact ⟨hmem, (public_listing_spec c6db).2.2 _ hmem⟩

/-- C7 counterexample: `getPlace` returns the review list in table order,
not newest-first — in a store whose two reviews were inserted oldest
first, the detail view lists the older review (createdAt 1) before the
newer one (createdAt 10). -/
theorem place_detail_order_cex :
    ((getPlace c7db 1).elim [] (fun x => x.reviews)).map (fun r => r.createdAt) =
      [some 1, some 10] ∧
    ¬ List.Pairwise (fun a b : Review => createdKey b.createdAt ≤ createdKey a.createdAt)
      ((getPlace c7db 1).elim [] (fun x => x.reviews)) := by
  constructor
  · decide
  · intro hp
    have h10 : (mkReview 11 1 4 10) ∈
        ((getPlace c7db 1).elim [] (fun x => x.reviews)).tail := by decide
    have hhead : ((getPlace c7db 1).elim [] (fun x => x.reviews)) =
        mkReview 10 1 5 1 :: [mkReview 11 1 4 10] := by decide
    rw [hhead] at hp
    have := (List.pairwise_cons.mp hp).1 (mkReview 11 1 4 10) (by simp)
    revert this
    decide

/-- C7 (amended): the place-detail operation returns the place whether
approved or pending, with its full review list in table (insertion)
order — no newest-first ordering is applied — and the aggregate fields,
or the absence signal when the id does not exist. -/
theorem place_detail_spec (db : DB) (id : Nat) :
    (db.places.find? (fun p => p.id == id) = none → getPlace db id = none) ∧
    (∀ p, db.places.find? (fun q => q.id == id) = some p →
      getPlace db id = some
        { place := p
          reviews := db.reviews.filter (fun r => r.placeId == p.id)
          reviewCount := (db.reviews.filter (fun r => r.placeId == p.id)).length
          averageRating :=
            specAverageRating
              ((db.reviews.filter (fun r => r.placeId == p.id)).map (fun r => r.rating)) }) := by
  constructor
  · intro h
    unfold getPlace
    rw [h]
    rfl
  · intro p h
    unfold getPlace
    rw [h]
    show some (buildPlaceWithReviews db p true) = _
    have hb : buildPlaceWithReviews db p true =
        { place := p
          reviews := db.reviews.filter (fun r => r.placeId == p.id)
          reviewCount := (db.reviews.filter (fun r => r.placeId == p.id)).length
          averageRating := toFixed1
            (if (db.reviews.filter (fun r => r.placeId == p.id)).length > 0 then
              (sumRatings (db.reviews.filter (fun r => r.placeId == p.id)) : ℚ) /
                (db.reviews.filter (fun r => r.placeId == p.id)).length
            else 0) } := rfl
    rw [hb, avgCode_eq_spec]

/-- C7 witness: the amended description applied to the concrete store. -/
theorem place_detail_spec_witness :
    getPlace c7db 1 = some
      { place := { mkPlace 1 with approved := true, approvedBy := some "a", approvedAt := some 9 }
        reviews := c7db.reviews.filter (fun r => r.placeId == 1)
        reviewCount := (c7db.reviews.filter (fun r => r.placeId == 1)).length
        averageRating :=
          specAverageRating
            ((c7db.reviews.filter (fun r => r.placeId == 1)).map (fun r => r.rating)) } :=
  (place_detail_spec c7db 1).2 _ (by decide)

/-- C8 counterexample: a body whose name is the empty string is not
rejected — the route answers created and stores the empty-named row, so
the required fields are not checked for non-emptiness. -/
theorem create_place_empty_name_cex :
    (postPlace (fun _ => true) emptyDB c8body "u1" 7).1 = .created c8row ∧
    (postPlace (fun _ => true) emptyDB c8body "u1" 7).2.places = [c8row] := by
  constructor <;> decide

/-- C8 (amended): createPlace requires name and location to be present
(string-typed — the empty string is accepted), answering a validation
error naming the first failing field otherwise; on success it inserts the
row pending (approval flag false, approver and approval timestamp null)
with a generated id and creation timestamp and returns the stored row. -/
theorem create_place_spec (isUrl : String → Bool) (db : DB) (body : PlaceBody)
    (auth : String) (now : Nat) :
    (body.name = none →
      postPlace isUrl db body auth now = (.validationFailed "name" "Required", db)) ∧
    (∀ n, body.name = some n → body.location = none →
      postPlace isUrl db body auth now = (.validationFailed "location" "Required", db)) ∧
    (∀ input, parseInsertPlace isUrl body = .ok input →
      postPlace isUrl db body auth now =
        (.created ((createPlace db input auth now).1), (createPlace db input auth now).2) ∧
      (createPlace db input auth now).1.id = db.nextId ∧
      (createPlace db input auth now).1.createdAt = some now ∧
      (createPlace db input auth now).1.createdBy = auth ∧
      (createPlace db input auth now).1.name = input.name ∧
      (createPlace db input auth now).1.location = input.location ∧
      (createPlace db input auth now).1.approved = false ∧
      (createPlace db input auth now).1.approvedBy = none ∧
      (createPlace db input auth now).1.approvedAt = none ∧
      (createPlace db input auth now).2.places =
        db.places ++ [(createPlace db input auth now).1]) := by
  refine ⟨?_, ?_, ?_⟩
  · intro h
    have hp : parseInsertPlace isUrl body = .error { field := "name", message := "Required" } := by
      unfold parseInsertPlace
      rw [h]
    unfold postPlace
    rw [hp]
  · intro n hn hl
    have hp : parseInsertPlace isUrl body =
        .error { field := "location", message := "Required" } := by
      unfold parseInsertPlace
      rw [hn, hl]
    unfold postPlace
    rw [hp]
  · intro input h
    unfold postPlace
    rw [h]
    exact ⟨rfl, rfl, rfl, rfl, rfl, rfl, rfl, rfl, rfl, rfl⟩

/-- C8 witness: a well-formed body is parsed and stored pending. -/
theorem create_place_spec_witness :
    postPlace (fun _ => true) emptyDB c8goodBody "u1" 7 =
      (.created ((createPlace emptyDB c8input "u1" 7).1),
        (createPlace emptyDB c8input "u1" 7).2) ∧
    (createPlace emptyDB c8input "u1" 7).1.approved = false ∧
    (createPlace emptyDB c8input "u1" 7).1.createdBy = "u1" :=
  ⟨((create_place_spec (fun _ => true) emptyDB c8goodBody "u1" 7).2.2 c8input (by rfl)).1,
    ((create_place_spec (fun _ => true) emptyDB c8goodBody "u1" 7).2.2 c8input
      (by rfl)).2.2.2.2.2.2.1,
    ((create_place_spec (fun _ => true) emptyDB c8goodBody "u1" 7).2.2 c8input
      (by rfl)).2.2.2.1⟩

/-- C10: for authenticated create-place and create-review requests the
stored ownership and moderation fields are independent of the body: the
insert schemas strip id, createdBy, userId, placeId, approved, approvedBy
and approvedAt, so two bodies differing only in those fields give the
same response and stored state, and the stored row always carries the
authenticated caller's id (and the path's place id for reviews). -/
theorem insert_schemas_strip_forged_fields :
    (∀ (isUrl : String → Bool) (db : DB) (b1 b2 : PlaceBody) (auth : String) (now : Nat),
      b1.name = b2.name → b1.description = b2.description → b1.location = b2.location →
      b1.latitude = b2.latitude → b1.longitude = b2.longitude →
      b1.imageUrl1 = b2.imageUrl1 → b1.imageUrl2 = b2.imageUrl2 → b1.imageUrl3 = b2.imageUrl3 →
      postPlace isUrl db b1 auth now = postPlace isUrl db b2 auth now) ∧
    (∀ (isUrl : String → Bool) (db : DB) (body : PlaceBody) (auth : String) (now : Nat)
        (place : Place) (db2 : DB),
      postPlace isUrl db body auth now = (.created place, db2) →
      place.createdBy = auth ∧ place.id = db.nextId ∧ place.approved = false ∧
        place.approvedBy = none ∧ place.approvedAt = none) ∧
    (∀ (db : DB) (pid : Nat) (uid : String) (b1 b2 : ReviewBody) (now : Nat),
      b1.rating = b2.rating → b1.comment = b2.comment →
      postReview db pid uid b1 now = postReview db pid uid b2 now) ∧
    (∀ (db : DB) (pid : Nat) (uid : String) (body : ReviewBody) (now : Nat)
        (review : Review) (db2 : DB),
      postReview db pid uid body now = (.created review, db2) →
      review.userId = uid ∧ review.placeId = pid ∧ review.id = db.nextId) := by
  refine ⟨?_, ?_, ?_, ?_⟩
  · intro isUrl db b1 b2 auth now h1 h2 h3 h4 h5 h6 h7 h8
    have hp : parseInsertPlace isUrl b1 = parseInsertPlace isUrl b2 := by
      unfold parseInsertPlace
      rw [h1, h2, h3, h4, h5, h6, h7, h8]
    unfold postPlace
    rw [hp]
  · intro isUrl db body auth now place db2 h
    unfold postPlace at h
    rcases hp : parseInsertPlace isUrl body with e | input
    · rw [hp] at h
      simp at h
    · rw [hp] at h
      simp only [Prod.mk.injEq, CreatePlaceResult.created.injEq] at h
      obtain ⟨hplace, -⟩ := h
      subst hplace
      exact ⟨rfl, rfl, rfl, rfl, rfl⟩
  · intro db pid uid b1 b2 now h1 h2
    have hp : parseInsertReview b1 = parseInsertReview b2 := by
      unfold parseInsertReview
      rw [h1, h2]
    unfold postReview
    rw [hp]
  · intro db pid uid body now review db2 h
    unfold postReview at h
    by_cases hr : hasUserReviewedPlace db uid pid = true
    · rw [if_pos hr] at h
      simp at h
    · rw [if_neg hr] at h
      rcases hp : parseInsertReview body with e | input
      · rw [hp] at h
        simp at h
      · rw [hp] at h
        simp only [Prod.mk.injEq, CreateReviewResult.created.injEq] at h
        obtain ⟨hrev, -⟩ := h
        subst hrev
        exact ⟨rfl, rfl, rfl⟩

/-- C10 witness: a body with every forgeable field set produces exactly
the same response and state as the clean body, for both routes. -/
theorem insert_schemas_strip_forged_fields_witness :
    postPlace (fun _ => true) emptyDB c8goodBody "u1" 7 =
      postPlace (fun _ => true) emptyDB c10forgedBody "u1" 7 ∧
    postReview emptyDB 5 "u1" c10reviewBody 7 = postReview emptyDB 5 "u1" c10forgedReviewBody 7 :=
  ⟨insert_schemas_strip_forged_fields.1 (fun _ => true) emptyDB c8goodBody c10forgedBody "u1" 7
      rfl rfl rfl rfl rfl rfl rfl rfl,
    insert_schemas_strip_forged_fields.2.2.1 emptyDB 5 "u1" c10reviewBody c10forgedReviewBody 7
      rfl rfl⟩

/-- C9: for a valid in-bounds query the nearby ranking annotates every
listed approved place with the haversine distance (Earth radius 6371 km)
when its parsed coordinates are not (0,0), assigns infinity when the
coordinates parse to (0,0) (in particular when both are missing), sorts
ascending by distance — an infinite-distance place never precedes a
finite-distance one — and returns at most 20 places, each no farther than
any place left out. -/
theorem nearby_ranking_spec (pf : String → ℝ) (lat lng : ℝ) (db : DB)
    (out : List (PlaceWithReviews × WithTop ℝ))
    (hpf : pf "0" = 0) (_hbounds : inUaeBounds lat lng)
    (h : nearbyOutput pf lat lng db out) :
    out.length ≤ 20 ∧
    List.Pairwise distLe out ∧
    (∀ pr ∈ out, pr.1 ∈ getPlaces db ∧ pr.2 = distanceOf pf lat lng pr.1 ∧
      (pf (orDefault pr.1.place.latitude "0") = 0 ∧
          pf (orDefault pr.1.place.longitude "0") = 0 → pr.2 = ⊤) ∧
      (¬(pf (orDefault pr.1.place.latitude "0") = 0 ∧
          pf (orDefault pr.1.place.longitude "0") = 0) →
        pr.2 = (haversineKm lat lng (pf (orDefault pr.1.place.latitude "0"))
          (pf (orDefault pr.1.place.longitude "0")) : WithTop ℝ)) ∧
      (pr.1.place.latitude = none ∧ pr.1.place.longitude = none → pr.2 = ⊤)) ∧
    List.Pairwise (fun a b : PlaceWithReviews × WithTop ℝ => a.2 = ⊤ → b.2 = ⊤) out ∧
    (∃ rest, (out ++ rest).Perm ((getPlaces db).map (fun x => (x, distanceOf pf lat lng x))) ∧
      ∀ a ∈ out, ∀ b ∈ rest, a.2 ≤ b.2) := by
  obtain ⟨s, hperm, hsort, hout⟩ := h
  subst hout
  have hdist : ∀ pr ∈ s.take 20, pr.2 = distanceOf pf lat lng pr.1 ∧ pr.1 ∈ getPlaces db := by
    intro pr hpr
    have hs : pr ∈ s := (List.take_sublist _ _).subset hpr
    have hm : pr ∈ (getPlaces db).map (fun x => (x, distanceOf pf lat lng x)) :=
      hperm.mem_iff.mp hs
    simp only [List.mem_map] at hm
    obtain ⟨x, hx, he⟩ := hm
    subst he
    exact ⟨rfl, hx⟩
  refine ⟨?_, ?_, ?_, ?_, ?_⟩
  · rw [List.length_take]
    exact min_le_left _ _
  · exact List.Pairwise.sublist (List.take_sublist _ _) hsort
  · intro pr hpr
    obtain ⟨hd, hmem⟩ := hdist pr hpr
    refine ⟨hmem, hd, ?_, ?_, ?_⟩
    · intro hc
      rw [hd]
      unfold distanceOf
      rw [if_pos hc]
    · intro hc
      rw [hd]
      unfold distanceOf
      rw [if_neg hc]
    · intro ⟨hla, hlo⟩
      rw [hd]
      unfold distanceOf
      rw [if_pos ?_]
      rw [hla, hlo]
      show pf (orDefault none "0") = 0 ∧ pf (orDefault none "0") = 0
      exact ⟨hpf, hpf⟩
  · refine List.Pairwise.imp ?_ (List.Pairwise.sublist (List.take_sublist _ _) hsort)
    intro a b hab ha
    exact top_le_iff.mp (ha ▸ hab)
  · refine ⟨s.drop 20, ?_, ?_⟩
    · rw [List.take_append_drop]
      exact hperm
    · rw [← List.take_append_drop 20 s] at hsort
      exact (List.pairwise_append.mp hsort).2.2

/-- C9 witness: the empty store has an empty (trivially sorted, at most
20 element) nearby ranking at the in-bounds query (25, 55). -/
theorem nearby_ranking_spec_witness :
    pfZero "0" = 0 ∧ inUaeBounds 25 55 ∧ nearbyOutput pfZero 25 55 emptyDB [] ∧
    ([] : List (PlaceWithReviews × WithTop ℝ)).length ≤ 20 := by
  have h0 : pfZero "0" = 0 := rfl
  have hb : inUaeBounds 25 55 := by norm_num [inUaeBounds]
  have hn : nearbyOutput pfZero 25 55 emptyDB [] :=
    ⟨[], List.Perm.nil, List.sorted_nil, rfl⟩
  exact ⟨h0, hb, hn, (nearby_ranking_spec pfZero 25 55 emptyDB [] h0 hb hn).1⟩

end Iftar
